import Mathlib

/-!
Formal model of the lotobot-backend query-routing and retrieval engine.

The definitions below are a shallow embedding of the Python sources:
* `src/integrations/ai/rag.py`      — the semantic index (`RAGSystem`),
* `src/integrations/ai/agent.py`    — the query router (`Agent`),
* `src/integrations/stoloto/client.py` — the rate-limited gateway (`StolotoClient`),
* `src/integrations/stoloto/base.py`   — the cached section fetcher (`BaseStolotoSection`),
* `src/presentation/routers/ai.py` and `src/services/ai/chat_service.py`
  — the rolling conversation context of the session protocol.

External dependencies of the code (the sentence-transformer embedding model,
sklearn's cosine similarity, the remote completion service, the JSON parser for
completion output, and the HTTP transport) are modelled as parameters: an
embedding function `String → V`, a similarity function `V → V → ℚ` (floating
point scores are abstracted to rationals), completion oracles `String → String`
keyed by the final user message, a parse oracle `String → Option J`, and
`Except`-valued transport outcomes.  Everything the repository itself computes
is translated directly from the source.
-/

namespace Lotobot

/-- Python truthiness of an optional string field: `content_item.get(k)` is
falsy when the key is absent or the value is the empty string
(`rag.py`, `_extract_lottery_info`, the `if content_item.get('prizeTitle'):`
style guards). -/
def pyTruthyStr (v : Option String) : Option String :=
  match v with
  | none => none
  | some s => if s = "" then none else some s

/-- A flattened catalog record as built by `RAGSystem.load_from_stoloto_data`
and `RAGSystem._extract_lottery_info` (`rag.py`): one of the three dict shapes
appended to `self.data`. -/
inductive CatalogRecord where
  | lottery (code name lotteryType : String)
      (prizeTitle prizeSum superPrize : Option String)
  | packet (name : String) (price : Int) (description : String) (betsCount : Nat)
  | activeDraw (lotteryCode : String) (draw : Int) (prizeTitle value : String)
deriving DecidableEq, Repr

instance : Inhabited CatalogRecord := ⟨CatalogRecord.packet "" 0 "" 0⟩

/-- The `lottery` sub-object checked by `_extract_lottery_info` (`rag.py`). -/
structure LotteryInfo where
  code : String
  name : String
  lotteryType : String
deriving DecidableEq, Repr

/-- One entry of an item's `contents` list in the `main` section payload
(`rag.py`, `load_from_stoloto_data`, main-categories walk). -/
structure ContentItem where
  lottery : Option LotteryInfo
  prizeTitle : Option String
  prizeSum : Option String
  superPrize : Option String
deriving DecidableEq, Repr

/-- The `item` of a content entry; `contents` is present only for container
items (`if 'contents' in item:` in `rag.py`). -/
structure MainItem where
  contents : Option (List ContentItem)
deriving DecidableEq, Repr

/-- A `content` wrapper in a main-section datum; `content.get('item', {})`
defaults to an empty dict, which behaves like an item without `contents`. -/
structure MainContent where
  item : Option MainItem
deriving DecidableEq, Repr

/-- One datum of the main section's `data` list. -/
structure MainDatum where
  contents : List MainContent
deriving DecidableEq, Repr

/-- The `main` section payload (`main_data['data']`). -/
structure MainData where
  data : List MainDatum
deriving DecidableEq, Repr

/-- One packet of the `list` section; `bets` is kept as its length, which is
all `load_from_stoloto_data` reads (`len(packet.get('bets') or [])`). -/
structure PacketData where
  name : String
  price : Int
  description : String
  bets : Nat
deriving DecidableEq, Repr

/-- The `list` section payload (`list_data['packets']`). -/
structure ListData where
  packets : List PacketData
deriving DecidableEq, Repr

/-- One tab of the `tabs` section. -/
structure TabData where
  lotteryCode : String
  draw : Int
  prizeTitle : String
  value : String
deriving DecidableEq, Repr

/-- The `tabs` section payload (`tabs_data['data']`). -/
structure TabsData where
  data : List TabData
deriving DecidableEq, Repr

/-- The `stoloto_data` bundle handed to `load_from_stoloto_data`: the three
sections, each possibly `None` (`agent.py`, `_load_rag_data` builds it with
`model_dump() if x else None`). -/
structure SourceBundle where
  main : Option MainData
  list : Option ListData
  tabs : Option TabsData
deriving DecidableEq, Repr

/-- `_extract_lottery_info` (`rag.py`): requires a truthy `lottery` sub-dict,
merges the optional prize fields only when truthy. -/
def extractLotteryInfo (ci : ContentItem) : Option CatalogRecord :=
  match ci.lottery with
  | none => none
  | some l =>
      some (CatalogRecord.lottery l.code l.name l.lotteryType
        (pyTruthyStr ci.prizeTitle) (pyTruthyStr ci.prizeSum)
        (pyTruthyStr ci.superPrize))

/-- The main-categories walk of `load_from_stoloto_data`: records failing the
required-field checks are skipped silently. -/
def extractMain (m : MainData) : List CatalogRecord :=
  m.data.flatMap fun datum =>
    datum.contents.flatMap fun content =>
      match content.item with
      | none => []
      | some item =>
          match item.contents with
          | none => []
          | some cis => cis.filterMap extractLotteryInfo

/-- The packets walk of `load_from_stoloto_data`. -/
def extractPackets (l : ListData) : List CatalogRecord :=
  l.packets.map fun p =>
    CatalogRecord.packet p.name p.price p.description p.bets

/-- The tabs walk of `load_from_stoloto_data`; `lotteryCode` is upper-cased
(`tab.get('lotteryCode', '').upper()`). -/
def extractTabs (t : TabsData) : List CatalogRecord :=
  t.data.map fun tab =>
    CatalogRecord.activeDraw (tab.lotteryCode.map Char.toUpper) tab.draw
      tab.prizeTitle tab.value

/-- The complete record-extraction pass of `load_from_stoloto_data`, in source
order: main categories, then packets, then tabs.  An absent (`None`) section
contributes nothing (`if 'main' in stoloto_data and stoloto_data['main']:`). -/
def extractRecords (b : SourceBundle) : List CatalogRecord :=
  (match b.main with | none => [] | some m => extractMain m)
    ++ (match b.list with | none => [] | some l => extractPackets l)
    ++ (match b.tabs with | none => [] | some t => extractTabs t)

/-- Render an optional record field as zero or one `key: value` parts. -/
def optField (key : String) (v : Option String) : List String :=
  match v with
  | none => []
  | some s => [key ++ ": " ++ s]

/-- `_dict_to_string` (`rag.py` and identically `agent.py`) applied to the
three record dict shapes: flatten to `key: value` parts joined by a comma and
a space, in the dicts' insertion order. -/
def recordToText : CatalogRecord → String
  | CatalogRecord.lottery c n t pt ps sp =>
      String.intercalate ", "
        (["type: lottery", "code: " ++ c, "name: " ++ n, "lottery_type: " ++ t]
          ++ optField "prize_title" pt ++ optField "prize_sum" ps
          ++ optField "super_prize" sp)
  | CatalogRecord.packet n p d bc =>
      String.intercalate ", "
        ["type: packet", "name: " ++ n, "price: " ++ toString p,
          "description: " ++ d, "bets_count: " ++ toString bc]
  | CatalogRecord.activeDraw lc d pt v =>
      String.intercalate ", "
        ["type: active_draw", "lottery_code: " ++ lc, "draw: " ++ toString d,
          "prize_title: " ++ pt, "value: " ++ v]

/-- The observable state of `RAGSystem` (`rag.py`): the record list
`self.data` and the optional embedding matrix `self.embeddings`, with
embedding vectors abstracted to an arbitrary type `V`. -/
structure RagState (V : Type) where
  data : List CatalogRecord
  embeddings : Option (List V)
deriving DecidableEq, Repr

/-- The state of a fresh `RAGSystem()`: no records, no embeddings. -/
def emptyRag (V : Type) : RagState V := ⟨[], none⟩

/-- `RAGSystem.load_from_stoloto_data` (`rag.py`), end-to-end effect on the
state: clear and rebuild `self.data` from the bundle, then either install one
embedding per serialized record (`if texts:`) or set `self.embeddings = None`.
The previous state is fully replaced. -/
def loadFromStolotoData {V : Type} (embed : String → V) (b : SourceBundle)
    (_prev : RagState V) : RagState V :=
  let recs := extractRecords b
  let texts := recs.map recordToText
  if texts.isEmpty then ⟨recs, none⟩
  else ⟨recs, some (texts.map embed)⟩

/-- The intermediate `RAGSystem` state observable while
`load_from_stoloto_data` is suspended at `await asyncio.to_thread(encode)`
(`rag.py` line 150): `self.data` already holds the new records (rebuilt
synchronously before the await) while `self.embeddings` still holds the
previous matrix.  This state is reached whenever the new batch is non-empty. -/
def ragMidState {V : Type} (b : SourceBundle) (prev : RagState V) :
    RagState V :=
  ⟨extractRecords b, prev.embeddings⟩

/-- Ascending comparison of candidate indices by similarity, ties by index.
NumPy's default `np.argsort` (`kind='quicksort'`, i.e. introsort) guarantees
only an ascending order — the relative order of equal keys is unspecified
above its small-array insertion-sort cutoff (~16 elements), below which the
output is stable with ties in ascending index order, which this relation
encodes.  `idxLe` therefore gives one admissible, executable resolution of
the argsort — exact for the small concrete indices evaluated in this file —
while `ArgsortSpec` below captures the only contract that holds for every
array size. -/
def idxLe (sims : List ℚ) (i j : Nat) : Prop :=
  sims.getD i 0 < sims.getD j 0 ∨ (sims.getD i 0 = sims.getD j 0 ∧ i ≤ j)

instance (sims : List ℚ) (i j : Nat) : Decidable (idxLe sims i j) := by
  unfold idxLe
  infer_instance

instance (sims : List ℚ) : DecidableRel (idxLe sims) :=
  fun i j => inferInstanceAs (Decidable (idxLe sims i j))

instance (sims : List ℚ) : IsTotal Nat (idxLe sims) := by
  constructor
  intro a b
  unfold idxLe
  rcases lt_trichotomy (sims.getD a 0) (sims.getD b 0) with h | h | h
  · exact Or.inl (Or.inl h)
  · rcases Nat.le_total a b with hab | hab
    · exact Or.inl (Or.inr ⟨h, hab⟩)
    · exact Or.inr (Or.inr ⟨h.symm, hab⟩)
  · exact Or.inr (Or.inl h)

instance (sims : List ℚ) : IsTrans Nat (idxLe sims) := by
  constructor
  intro a b c hab hbc
  unfold idxLe at hab hbc ⊢
  rcases hab with h1 | ⟨e1, l1⟩
  · rcases hbc with h2 | ⟨e2, l2⟩
    · exact Or.inl (h1.trans h2)
    · exact Or.inl (lt_of_lt_of_eq h1 e2)
  · rcases hbc with h2 | ⟨e2, l2⟩
    · exact Or.inl (e1.trans_lt h2)
    · exact Or.inr ⟨e1.trans e2, l1.trans l2⟩

/-- The stable resolution of `np.argsort(similarities)`: the indices
`0 .. n-1` sorted ascending by similarity, ties by ascending index.  It
satisfies `ArgsortSpec` (so it is one output the unstable default sort may
produce) and coincides with NumPy's actual output below the insertion-sort
cutoff — in particular on every concrete index this file evaluates. -/
def argsortStable (sims : List ℚ) : List Nat :=
  List.insertionSort (idxLe sims) (List.range sims.length)

/-- `np.argsort(similarities)[::-1][:top_k]` (`rag.py`, `search`), with the
argsort resolved by `argsortStable`. -/
def searchIndices (sims : List ℚ) (topK : Nat) : List Nat :=
  ((argsortStable sims).reverse).take topK

/-- `RAGSystem.search` (`rag.py`): empty result when `self.embeddings is None
or len(self.data) == 0`; otherwise encode the query, score every stored
vector, take the reversed argsort prefix, and pair `self.data[idx]` with
`float(similarities[idx])`.  `sim` abstracts sklearn's `cosine_similarity`
row, `embed` abstracts `self.model.encode`; the argsort is resolved by
`argsortStable`, which is NumPy's behaviour on the small concrete indices
this file evaluates — `searchResultOf` below leaves the argsort output as a
parameter for statements that must hold at every array size.  (Python would
raise an `IndexError` if a selected index fell outside `self.data`; the
`getD` default is never reached in the states the theorems consider, where
`len(embeddings) = len(data)` or the selected indices stay in range.) -/
def searchModel {V : Type} (sim : V → V → ℚ) (embed : String → V)
    (st : RagState V) (query : String) (topK : Nat) :
    List (CatalogRecord × ℚ) :=
  match st.embeddings with
  | none => []
  | some embs =>
      if st.data.length = 0 then []
      else
        let q := embed query
        let sims := embs.map (sim q)
        (searchIndices sims topK).map fun i =>
          (st.data.getD i default, sims.getD i 0)

/-- Everything NumPy guarantees of `np.argsort(similarities)` with the
default `kind`: some permutation of the indices `0 .. n-1`, ascending by
similarity.  The relative order of equal keys is *not* part of the contract
(introsort is unstable above its insertion-sort cutoff), so theorems about
search on arbitrary index sizes quantify over every `order` satisfying this
predicate. -/
def ArgsortSpec (sims : List ℚ) (order : List Nat) : Prop :=
  List.Perm order (List.range sims.length)
  ∧ List.Pairwise (fun i j => sims.getD i 0 ≤ sims.getD j 0) order

/-- `RAGSystem.search` with the output of `np.argsort(similarities)` left as
the parameter `order`: identical to `searchModel` except that the reversed
top-k prefix is taken of `order` instead of `argsortStable`'s output.
Quantified over every `order` satisfying `ArgsortSpec`, it covers every
behaviour the unstable default argsort may exhibit. -/
def searchResultOf {V : Type} (sim : V → V → ℚ) (embed : String → V)
    (st : RagState V) (query : String) (topK : Nat) (order : List Nat) :
    List (CatalogRecord × ℚ) :=
  match st.embeddings with
  | none => []
  | some embs =>
      if st.data.length = 0 then []
      else
        let q := embed query
        let sims := embs.map (sim q)
        ((order.reverse).take topK).map fun i =>
          (st.data.getD i default, sims.getD i 0)

/-- `StolotoClient._wait_for_rate_limit` (`client.py`): inside the lock,
compute the elapsed time since the last dispatch start; sleep for the
remainder when it is below `rate_limit`; then set `last_request_time` to the
current clock reading.  `now` is the clock value read on entry, `jitter ≥ 0`
is the extra time that passes between the nominal wake-up (resp. the entry
read) and the final `time.time()` re-read.  The returned value is both the
new `last_request_time` and the dispatch start instant. -/
def waitForRateLimit (rate last now jitter : ℚ) : ℚ :=
  if now - last < rate then last + rate + jitter else now + jitter

/-- `StolotoClient.request` (`client.py`): wait for the rate limit — which
updates `last_request_time` at the moment sending begins — then perform the
transport call, whose outcome (`transport`) is surfaced unchanged as success
or a gateway error.  The pair is (new `last_request_time`, response). -/
def gatewayRequest {R : Type} (rate last now jitter : ℚ)
    (transport : Except Unit R) : ℚ × Except Unit R :=
  (waitForRateLimit rate last now jitter, transport)

/-- The sequence of dispatch start instants produced by a series of calls
serialized by the client's `asyncio.Lock`, in lock-acquisition order: each
call carries its clock reading on entering the critical section and its
scheduling jitter. -/
def dispatchStarts (rate : ℚ) : ℚ → List (ℚ × ℚ) → List ℚ
  | _, [] => []
  | last, (now, j) :: rest =>
      let s := waitForRateLimit rate last now j
      s :: dispatchStarts rate s rest

/-- Outcome of the cache read performed by
`BaseStolotoSection._get_from_cache` (`base.py`): a stored value, a miss, or
a raised cache error. -/
inductive CacheRead (D : Type) where
  | hit (v : D)
  | miss
  | readError
deriving DecidableEq, Repr

/-- `BaseStolotoSection._get_from_cache` (`base.py`): return the deserialized
model on a truthy cached value (`if cached_data:`), `None` on a miss or a
falsy value, and — via the `except` clause — `None` on a read failure as
well. -/
def getFromCache {D M : Type} (truthy : D → Bool) (deser : D → M) :
    CacheRead D → Option M
  | CacheRead.hit v => if truthy v then some (deser v) else none
  | CacheRead.miss => none
  | CacheRead.readError => none

/-- `BaseStolotoSection.get` (`base.py`).  Unless `force` is set, try the
cache first and return a hit.  Otherwise call `_fetch_from_api` (outcome
`fetch`; a failure propagates), then attempt exactly one cache write —
`_save_to_cache` swallows the write outcome `writeFails`, which therefore
cannot influence the result — and return the fresh value.  The result
records the returned value, whether the upstream fetch ran, and how many
cache writes were attempted. -/
def sectionGet {D M E : Type} (truthy : D → Bool) (deser : D → M)
    (read : CacheRead D) (fetch : Except E M) (writeFails : Bool)
    (force : Bool) : Except E (M × Bool × Nat) :=
  let doFetch : Except E (M × Bool × Nat) :=
    match fetch with
    | Except.error e => Except.error e
    | Except.ok m =>
        let _ := writeFails
        Except.ok (m, true, 1)
  if force then doFetch
  else
    match getFromCache truthy deser read with
    | some m => Except.ok (m, false, 0)
    | none => doFetch

/-- One `{role, content}` turn of the rolling conversation context. -/
abbrev ChatTurn : Type := String × String

/-- Redis TTL of the persisted context, `CHAT_CONTEXT_TTL = 30 * 60`
(`chat_service.py`, `routers/ai.py`). -/
def chatContextTTL : Nat := 30 * 60

/-- The last `n` elements of a list — Python's `l[-n:]`. -/
def lastN {α : Type} (n : Nat) (l : List α) : List α :=
  (l.reverse.take n).reverse

/-- The context-size cap applied after appending a turn pair:
`if len(chat_context) > 20: chat_context = chat_context[-20:]`
(`routers/ai.py` lines 332-333, `chat_service.py` lines 174-175). -/
def truncateContext (l : List ChatTurn) : List ChatTurn :=
  if 20 < l.length then lastN 20 l else l

/-- One processed send-message turn's effect on the persisted context
(`routers/ai.py` lines 327-336): append the user turn and the formatted
assistant turn, truncate, persist. -/
def stepTurn (ctx : List ChatTurn) (userMsg formatted : String) :
    List ChatTurn :=
  truncateContext (ctx ++ [("user", userMsg), ("assistant", formatted)])

/-- The persisted context after processing a sequence of send-message turns,
each given as (user message, formatted assistant reply). -/
def runTurns (ctx : List ChatTurn) : List (String × String) → List ChatTurn
  | [] => ctx
  | (u, f) :: rest => runTurns (stepTurn ctx u f) rest

/-- The full untruncated conversation history: the initial context followed
by every (user, assistant) pair in order. -/
def fullHistory (ctx : List ChatTurn) (msgs : List (String × String)) :
    List ChatTurn :=
  ctx ++ msgs.flatMap fun p => [("user", p.1), ("assistant", p.2)]

/-- Python's `str.strip()` whitespace test restricted to the ASCII whitespace
characters (`agent.py` strips the completion text before matching). -/
def pyIsSpace (c : Char) : Bool :=
  c = ' ' || c = '\t' || c = '\n' || c = '\r' || c = '\x0b' || c = '\x0c'

/-- Python's `str.strip()`: drop leading and trailing whitespace. -/
def pyStrip (l : List Char) : List Char :=
  ((l.dropWhile pyIsSpace).reverse.dropWhile pyIsSpace).reverse

/-- The characters of the matched token `'search'`. -/
def searchToken : List Char := "search".toList

/-- `Agent._detect_intent` (`agent.py` lines 186-187), post-processing of the
completion text: `intent_raw = text.strip().lower()`, then
`'search' if 'search' in intent_raw else 'answer'`. -/
def pyDetectIntent (raw : List Char) : String :=
  if searchToken <:+: (pyStrip raw).map Char.toLower then "search"
  else "answer"

/-- `_detect_intent` on a completion response given as a string. -/
def pyDetectIntentS (raw : String) : String :=
  pyDetectIntent raw.toList

/-- The external completion service and the JSON decoder, as oracles
(`agent.py` issues one completion per instruction set; each oracle maps the
final user-message content to the generated text, the surrounding system
prompt and chat context being fixed).  `parse` abstracts `json.loads`:
`some` on success, `none` on `JSONDecodeError`. -/
structure Completions (J : Type) where
  intent : String → String
  keywords : String → String
  conversation : String → String
  analysis : String → String
  parse : String → Option J

/-- The `content` of a router result: the raw completion text, or the parsed
structure when `json.loads` succeeded (`agent.py` lines 281-287). -/
inductive RouterContent (J : Type) where
  | str (s : String)
  | json (j : J)
deriving DecidableEq, Repr

/-- The dict returned by `Agent.process_query`: `{'action': ..., 'content': ...}`. -/
structure RouterResult (J : Type) where
  action : String
  content : RouterContent J
deriving DecidableEq, Repr

/-- The body of `Agent._load_rag_data` (`agent.py` lines 82-117) before the
exception handler: fetch the three sections sequentially (each `get()` either
returns a payload or raises), build the bundle — every successfully fetched
section is truthy, hence `some` — and ingest it.  A failed fetch short-circuits:
the later fetches do not run and `load_from_stoloto_data` is never called. -/
def loadRagDataE {V E : Type} (embed : String → V)
    (mainF : Except E MainData) (tabsF : Except E TabsData)
    (listF : Except E ListData) (prev : RagState V) :
    Except E (RagState V) := do
  let m ← mainF
  let t ← tabsF
  let l ← listF
  pure (loadFromStolotoData embed ⟨some m, some l, some t⟩ prev)

/-- `Agent._load_rag_data` (`agent.py`): the whole body runs under
`try: ... except Exception: logger.error(...)`, so any failure leaves the
index exactly as it was and nothing propagates. -/
def loadRagData {V E : Type} (embed : String → V)
    (mainF : Except E MainData) (tabsF : Except E TabsData)
    (listF : Except E ListData) (prev : RagState V) : RagState V :=
  match loadRagDataE embed mainF tabsF listF prev with
  | Except.ok s => s
  | Except.error _ => prev

/-- The index state `process_query` works with after its lazy-refresh check
(`agent.py` lines 216-218): refresh when `not self.rag.data or
force_refresh_rag`, otherwise keep the current index. -/
def refreshedRag {V E : Type} (embed : String → V)
    (mainF : Except E MainData) (tabsF : Except E TabsData)
    (listF : Except E ListData) (rag : RagState V) (forceRefresh : Bool) :
    RagState V :=
  if rag.data.isEmpty || forceRefresh then
    loadRagData embed mainF tabsF listF rag
  else rag

/-- The "no results" hint appended to the user query in the empty-retrieval
fallback (`agent.py` line 239). -/
def noResultsHint : String :=
  "\n\nК сожалению, не удалось найти подходящие лотереи. Можете уточнить запрос?"

/-- `Agent.process_query` (`agent.py` lines 195-313): lazily refresh the
index, classify the intent, and on `search` extract keywords, query the index
with `top_k=3`, then either fall back to a conversational completion with the
no-results hint (empty retrieval) or flatten the results, run the analysis
completion and parse-or-keep its text; on any other intent run one
conversational completion on the raw query.  Returns the index state after
the call together with the result dict. -/
def processQuery {V J E : Type} (sim : V → V → ℚ) (embed : String → V)
    (c : Completions J) (mainF : Except E MainData)
    (tabsF : Except E TabsData) (listF : Except E ListData)
    (rag : RagState V) (query : String) (forceRefresh : Bool) :
    RagState V × RouterResult J :=
  let rag1 := refreshedRag embed mainF tabsF listF rag forceRefresh
  let intent := pyDetectIntentS (c.intent query)
  if intent = "search" then
    let keywords := c.keywords query
    let results := searchModel sim embed rag1 keywords 3
    if results.isEmpty then
      (rag1, ⟨"search", RouterContent.str (c.conversation (query ++ noResultsHint))⟩)
    else
      let lotteriesData :=
        String.intercalate "\n" (results.map fun r => recordToText r.1)
      let resp := c.analysis ("Лотереи:\n" ++ lotteriesData)
      match c.parse resp with
      | some j => (rag1, ⟨"search", RouterContent.json j⟩)
      | none => (rag1, ⟨"search", RouterContent.str resp⟩)
  else
    (rag1, ⟨"answer", RouterContent.str (c.conversation query)⟩)

/-! ## Helper lemmas -/

lemma waitForRateLimit_ge (rate last now jitter : ℚ) (hj : 0 ≤ jitter) :
    last + rate ≤ waitForRateLimit rate last now jitter := by
  unfold waitForRateLimit
  by_cases h : now - last < rate
  · rw [if_pos h]
    linarith
  · rw [if_neg h]
    push_neg at h
    linarith

lemma dispatchStarts_chain (rate : ℚ) (calls : List (ℚ × ℚ)) :
    ∀ last : ℚ, (∀ p ∈ calls, 0 ≤ p.2) →
      List.Chain' (fun a b => a + rate ≤ b) (dispatchStarts rate last calls) := by
  induction calls with
  | nil =>
      intro last _
      simp [dispatchStarts]
  | cons p rest ih =>
      intro last h
      obtain ⟨now, j⟩ := p
      rw [dispatchStarts]
      apply List.chain'_cons'.mpr
      constructor
      · intro y hy
        rcases rest with _ | ⟨⟨n2, j2⟩, r2⟩
        · simp [dispatchStarts] at hy
        · rw [dispatchStarts] at hy
          simp only [List.head?_cons, Option.mem_def, Option.some.injEq] at hy
          subst hy
          exact waitForRateLimit_ge rate _ n2 j2 (h (n2, j2) (by simp))
      · exact ih _ fun q hq => h q (List.mem_cons_of_mem _ hq)

/-! ## Claim theorems -/

/-- C2: any serialized sequence of dispatches through
`StolotoClient._wait_for_rate_limit` has consecutive dispatch starts at least
`rate_limit` apart (for any clock readings and any non-negative scheduling
jitters), and `StolotoClient.request` fixes the new `last_request_time` at
the moment sending begins — it is the rate-limit wait's value, independent of
the transport outcome, so overlapping in-flight requests still respect the
floor on request starts. -/
theorem gateway_dispatch_gap (rate last : ℚ) (calls : List (ℚ × ℚ))
    (hj : ∀ p ∈ calls, 0 ≤ p.2) :
    List.Chain' (fun a b => a + rate ≤ b) (dispatchStarts rate last calls)
    ∧ (∀ (R : Type) (now jitter : ℚ) (t₁ t₂ : Except Unit R),
        (gatewayRequest rate last now jitter t₁).1
          = (gatewayRequest rate last now jitter t₂).1)
    ∧ (∀ (R : Type) (now jitter : ℚ) (t : Except Unit R),
        (gatewayRequest rate last now jitter t).1
          = waitForRateLimit rate last now jitter) := by
  refine ⟨dispatchStarts_chain rate calls last hj, ?_, ?_⟩
  · intro R now jitter t₁ t₂
    rfl
  · intro R now jitter t
    rfl

/-- C2 witness: three concrete calls arriving faster than the interval. -/
theorem gateway_dispatch_gap_witness :
    List.Chain' (fun a b => a + (1 : ℚ) ≤ b)
      (dispatchStarts 1 0 [((0 : ℚ), (0 : ℚ)), ((1/2 : ℚ), 0), ((3 : ℚ), 0)]) :=
  (gateway_dispatch_gap 1 0 [((0 : ℚ), (0 : ℚ)), ((1/2 : ℚ), 0), ((3 : ℚ), 0)]
    (by decide)).1

/-- C8: the cached section fetcher contract of `BaseStolotoSection.get`: a
populated (truthy) unexpired cache entry is returned without invoking the
upstream fetch; `force_refresh` always invokes the fetch regardless of cache
state; a successful fetch performs exactly one cache-write attempt whose
failure cannot affect the returned value; a fetch failure propagates; and a
cache-read failure behaves exactly like a miss. -/
theorem section_get_cache_contract (D M E : Type) (truthy : D → Bool)
    (deser : D → M) (v : D) (fetch : Except E M) (wf : Bool) :
    (truthy v = true →
      sectionGet truthy deser (CacheRead.hit v) fetch wf false
        = Except.ok (deser v, false, 0))
    ∧ (∀ (read : CacheRead D) (m : M), fetch = Except.ok m →
        sectionGet truthy deser read fetch wf true = Except.ok (m, true, 1))
    ∧ (∀ (read : CacheRead D) (e : E), fetch = Except.error e →
        sectionGet truthy deser read fetch wf true = Except.error e)
    ∧ (∀ (read : CacheRead D) (force : Bool),
        sectionGet truthy deser read fetch wf force
          = sectionGet truthy deser read fetch (!wf) force)
    ∧ (sectionGet truthy deser CacheRead.readError fetch wf false
        = sectionGet truthy deser CacheRead.miss fetch wf false) := by
  refine ⟨?_, ?_, ?_, ?_, rfl⟩
  · intro h
    simp [sectionGet, getFromCache, h]
  · intro read m h
    subst h
    simp [sectionGet]
  · intro read e h
    subst h
    simp [sectionGet]
  · intro read force
    rfl

/-- C8 witness: a concrete truthy cache hit is served without fetching. -/
theorem section_get_cache_contract_witness :
    sectionGet (fun b : Bool => b) (fun b : Bool => b) (CacheRead.hit true)
        (Except.ok false : Except Unit Bool) false false
      = Except.ok (true, false, 0) :=
  (section_get_cache_contract Bool Bool Unit (fun b => b) (fun b => b) true
    (Except.ok false) false).1 rfl

/-- C4: `load_from_stoloto_data` fully replaces the previous index state: an
all-`None` (failed) bundle, and more generally any bundle yielding no
records, installs the empty index regardless of what was installed before;
and after any load that installs embeddings their count equals the record
count. -/
theorem rag_load_replaces (V : Type) (embed : String → V) (b : SourceBundle)
    (prev : RagState V) :
    loadFromStolotoData embed ⟨none, none, none⟩ prev = emptyRag V
    ∧ (extractRecords b = [] → loadFromStolotoData embed b prev = emptyRag V)
    ∧ (∀ vs, (loadFromStolotoData embed b prev).embeddings = some vs →
        vs.length = (loadFromStolotoData embed b prev).data.length) := by
  refine ⟨rfl, ?_, ?_⟩
  · intro h
    simp [loadFromStolotoData, h, emptyRag]
  · intro vs hvs
    unfold loadFromStolotoData at hvs ⊢
    by_cases h : ((extractRecords b).map recordToText).isEmpty
    · rw [if_pos h] at hvs
      exact absurd hvs (by simp)
    · rw [if_neg h] at hvs ⊢
      simp only [Option.some.injEq] at hvs
      subst hvs
      simp

/-- C4 witness: a bundle with one packet installs one vector for one record;
re-ingesting the empty bundle afterwards clears everything. -/
theorem rag_load_replaces_witness :
    (∀ vs,
      (loadFromStolotoData (fun s => (s.length : ℚ)) ⟨none, some ⟨[⟨"P", 10, "d", 1⟩]⟩, none⟩
          (emptyRag ℚ)).embeddings = some vs →
      vs.length
        = (loadFromStolotoData (fun s => (s.length : ℚ)) ⟨none, some ⟨[⟨"P", 10, "d", 1⟩]⟩, none⟩
            (emptyRag ℚ)).data.length)
    ∧ loadFromStolotoData (fun s => (s.length : ℚ)) ⟨none, none, none⟩
        (loadFromStolotoData (fun s => (s.length : ℚ)) ⟨none, some ⟨[⟨"P", 10, "d", 1⟩]⟩, none⟩
          (emptyRag ℚ))
      = emptyRag ℚ :=
  ⟨(rag_load_replaces ℚ (fun s => (s.length : ℚ)) ⟨none, some ⟨[⟨"P", 10, "d", 1⟩]⟩, none⟩
      (emptyRag ℚ)).2.2,
    (rag_load_replaces ℚ (fun s => (s.length : ℚ)) ⟨none, none, none⟩
      (loadFromStolotoData (fun s => (s.length : ℚ)) ⟨none, some ⟨[⟨"P", 10, "d", 1⟩]⟩, none⟩
        (emptyRag ℚ))).1⟩

lemma lastN_length_le {α : Type} (n : Nat) (l : List α) :
    (lastN n l).length ≤ n := by
  simp only [lastN, List.length_reverse, List.length_take]
  exact Nat.min_le_left _ _

lemma truncateContext_eq_lastN (l : List ChatTurn) :
    truncateContext l = lastN 20 l := by
  unfold truncateContext
  by_cases h : 20 < l.length
  · rw [if_pos h]
  · rw [if_neg h]
    push_neg at h
    unfold lastN
    rw [List.take_of_length_le (by simpa using h), List.reverse_reverse]

lemma lastN_append_lastN {α : Type} (n : Nat) (xs ys : List α) :
    lastN n (lastN n xs ++ ys) = lastN n (xs ++ ys) := by
  unfold lastN
  rw [List.reverse_append, List.reverse_reverse, List.reverse_append]
  congr 1
  rw [List.take_append_eq_append_take, List.take_append_eq_append_take]
  congr 1
  rw [List.take_take]
  congr 1
  exact Nat.min_eq_left (Nat.sub_le _ _)

lemma runTurns_eq (msgs : List (String × String)) :
    ∀ ctx : List ChatTurn, msgs ≠ [] →
      runTurns ctx msgs = lastN 20 (fullHistory ctx msgs) := by
  induction msgs with
  | nil =>
      intro ctx h
      exact absurd rfl h
  | cons p rest ih =>
      intro ctx _
      obtain ⟨u, f⟩ := p
      rcases eq_or_ne rest [] with hr | hr
      · subst hr
        show stepTurn ctx u f = lastN 20 (fullHistory ctx [(u, f)])
        rw [stepTurn, truncateContext_eq_lastN]
        unfold fullHistory
        simp
      · show runTurns (stepTurn ctx u f) rest = lastN 20 (fullHistory ctx ((u, f) :: rest))
        rw [ih _ hr, stepTurn, truncateContext_eq_lastN]
        unfold fullHistory
        rw [lastN_append_lastN]
        congr 1
        simp [List.flatMap_cons, List.append_assoc]

/-- C9: after any non-empty sequence of processed send-message turns, the
persisted rolling context is exactly the most recent 20 entries of the full
conversation history (and in particular never exceeds 20 entries; once more
than 20 cumulative entries exist, exactly 20 are persisted). -/
theorem session_context_truncation (ctx : List ChatTurn)
    (msgs : List (String × String)) (h : msgs ≠ []) :
    runTurns ctx msgs = lastN 20 (fullHistory ctx msgs)
    ∧ (runTurns ctx msgs).length ≤ 20
    ∧ (20 ≤ (fullHistory ctx msgs).length → (runTurns ctx msgs).length = 20) := by
  have he := runTurns_eq msgs ctx h
  refine ⟨he, ?_, ?_⟩
  · rw [he]
    exact lastN_length_le _ _
  · intro hlen
    rw [he]
    simp only [lastN, List.length_reverse, List.length_take]
    omega

/-- C9 witness: eleven turns (22 history entries) leave exactly the 20 most
recent persisted. -/
theorem session_context_truncation_witness :
    (runTurns [] [("u1", "a1"), ("u2", "a2"), ("u3", "a3"), ("u4", "a4"),
        ("u5", "a5"), ("u6", "a6"), ("u7", "a7"), ("u8", "a8"), ("u9", "a9"),
        ("u10", "a10"), ("u11", "a11")]).length = 20 :=
  (session_context_truncation [] [("u1", "a1"), ("u2", "a2"), ("u3", "a3"),
      ("u4", "a4"), ("u5", "a5"), ("u6", "a6"), ("u7", "a7"), ("u8", "a8"),
      ("u9", "a9"), ("u10", "a10"), ("u11", "a11")]
    (by decide)).2.2 (by decide)

lemma pyIsSpace_cases {c : Char} (hc : pyIsSpace c = true) :
    c = ' ' ∨ c = '\t' ∨ c = '\n' ∨ c = '\r' ∨ c = '\x0b' ∨ c = '\x0c' := by
  have h2 := hc
  simp only [pyIsSpace, Bool.or_eq_true, decide_eq_true_eq] at h2
  tauto

lemma searchToken_head_not_space :
    ∀ c : Char, pyIsSpace c = true →
      searchToken.head? ≠ some (Char.toLower c) := by
  intro c hc
  rcases pyIsSpace_cases hc with h | h | h | h | h | h <;> subst h <;> decide

lemma searchToken_rev_head_not_space :
    ∀ c : Char, pyIsSpace c = true →
      searchToken.reverse.head? ≠ some (Char.toLower c) := by
  intro c hc
  rcases pyIsSpace_cases hc with h | h | h | h | h | h <;> subst h <;> decide

lemma token_infix_dropWhile (t : List Char)
    (hhd : ∀ c : Char, pyIsSpace c = true → t.head? ≠ some (Char.toLower c)) :
    ∀ l : List Char, t <:+: l.map Char.toLower →
      t <:+: (l.dropWhile pyIsSpace).map Char.toLower := by
  intro l
  induction l with
  | nil =>
      intro h
      simpa using h
  | cons c r ih =>
      intro h
      by_cases hc : pyIsSpace c = true
      · rw [List.dropWhile_cons, if_pos hc]
        apply ih
        rw [List.map_cons] at h
        rcases List.infix_cons_iff.mp h with hpre | hinf
        · cases t with
          | nil => exact List.nil_infix
          | cons a t2 =>
              have := (List.cons_prefix_cons.mp hpre).1
              exact absurd (by simp [this] : (a :: t2).head? = some (Char.toLower c))
                (hhd c hc)
        · exact hinf
      · rw [List.dropWhile_cons, if_neg hc]
        exact h

lemma token_infix_pyStrip (t : List Char)
    (hhd : ∀ c : Char, pyIsSpace c = true → t.head? ≠ some (Char.toLower c))
    (hlast : ∀ c : Char, pyIsSpace c = true →
      t.reverse.head? ≠ some (Char.toLower c)) :
    ∀ l : List Char, t <:+: l.map Char.toLower →
      t <:+: (pyStrip l).map Char.toLower := by
  intro l h
  unfold pyStrip
  have h1 := token_infix_dropWhile t hhd l h
  have h2 : t.reverse <:+: ((l.dropWhile pyIsSpace).reverse).map Char.toLower := by
    rw [List.map_reverse]
    exact List.reverse_infix.mpr h1
  have h3 := token_infix_dropWhile t.reverse hlast _ h2
  have h4 : t.reverse.reverse <:+:
      ((((l.dropWhile pyIsSpace).reverse).dropWhile pyIsSpace).map Char.toLower).reverse :=
    List.reverse_infix.mpr h3
  simpa [List.map_reverse] using h4

lemma pyStrip_isInfix (l : List Char) : pyStrip l <:+: l := by
  unfold pyStrip
  have h1 : l.dropWhile pyIsSpace <:+ l := List.dropWhile_suffix _
  have h2 : (l.dropWhile pyIsSpace).reverse.dropWhile pyIsSpace
      <:+ (l.dropWhile pyIsSpace).reverse := List.dropWhile_suffix _
  have h3 : ((l.dropWhile pyIsSpace).reverse.dropWhile pyIsSpace).reverse
      <+: l.dropWhile pyIsSpace := by
    have := List.reverse_prefix.mpr h2
    simpa using this
  exact h3.isInfix.trans h1.isInfix

/-- C6: `_detect_intent` classifies exactly by substring: the intent is
`"search"` precisely when the lower-cased completion text contains
`"search"` anywhere, and `"answer"` for any other content (the `strip()` the
code performs first cannot create or destroy an occurrence of the token). -/
theorem detect_intent_search_substring (raw : List Char) :
    pyDetectIntent raw
      = if searchToken <:+: raw.map Char.toLower then "search" else "answer" := by
  unfold pyDetectIntent
  by_cases h : searchToken <:+: raw.map Char.toLower
  · rw [if_pos h, if_pos]
    exact token_infix_pyStrip searchToken searchToken_head_not_space
      searchToken_rev_head_not_space raw h
  · rw [if_neg h, if_neg]
    intro hstrip
    exact h (hstrip.trans ((pyStrip_isInfix raw).map Char.toLower))

/-! ## Concrete fixtures for witnesses and counterexamples -/

/-- A concrete embedding oracle: the serialized text's length as a rational. -/
def embedLenQ (s : String) : ℚ := s.length

/-- A concrete similarity oracle: the product of the two scalars. -/
def mulSimQ (x y : ℚ) : ℚ := x * y

/-- A concrete embedding oracle mapping every text to 1 (used to build equal
similarity scores). -/
def oneEmbedQ (_ : String) : ℚ := 1

/-- A concrete tabs section with one active draw. -/
def tabsCE : TabsData := ⟨[⟨"x1", 7, "t", "v"⟩]⟩

/-- A concrete list section with one packet. -/
def listCE : ListData := ⟨[⟨"P", 10, "d", 1⟩]⟩

/-- A concrete completion-oracle bundle whose intent classifier always
answers "search" and whose other completions echo their input. -/
def echoCompletions : Completions Unit :=
  ⟨fun _ => "search", fun s => s, fun s => s, fun s => s, fun _ => none⟩

/-- C5 amended: the three section fetches of `_load_rag_data` run
sequentially inside a single `try` block, so a failure of any one fetch
aborts the whole refresh — the remaining sections are not ingested and the
index is left exactly as it was (the surrounding handler merely swallows the
exception).  Only when all three fetches succeed is the bundle built (every
section `some`) and ingested. -/
theorem load_rag_data_all_or_nothing (V E : Type) (embed : String → V)
    (mainF : Except E MainData) (tabsF : Except E TabsData)
    (listF : Except E ListData) (prev : RagState V) :
    (((∃ e, mainF = Except.error e) ∨ (∃ e, tabsF = Except.error e)
        ∨ (∃ e, listF = Except.error e)) →
      loadRagData embed mainF tabsF listF prev = prev)
    ∧ (∀ m t l, mainF = Except.ok m → tabsF = Except.ok t →
        listF = Except.ok l →
        loadRagData embed mainF tabsF listF prev
          = loadFromStolotoData embed ⟨some m, some l, some t⟩ prev) := by
  constructor
  · intro h
    unfold loadRagData loadRagDataE
    rcases h with ⟨e, he⟩ | ⟨e, he⟩ | ⟨e, he⟩ <;> subst he
    · rfl
    · cases mainF <;> rfl
    · cases mainF <;> cases tabsF <;> rfl
  · intro m t l hm ht hl
    subst hm
    subst ht
    subst hl
    rfl

/-- C5 witness: with all three fetches succeeding, the bundle carrying every
section is ingested. -/
theorem load_rag_data_all_or_nothing_witness :
    loadRagData embedLenQ (Except.ok ⟨[]⟩ : Except Unit MainData)
        (Except.ok tabsCE) (Except.ok listCE) (emptyRag ℚ)
      = loadFromStolotoData embedLenQ ⟨some ⟨[]⟩, some listCE, some tabsCE⟩
          (emptyRag ℚ) :=
  (load_rag_data_all_or_nothing ℚ Unit embedLenQ (Except.ok ⟨[]⟩)
    (Except.ok tabsCE) (Except.ok listCE) (emptyRag ℚ)).2 ⟨[]⟩ tabsCE listCE
    rfl rfl rfl

/-- C5 counterexample: when the `main` fetch fails while `tabs` and `list`
would succeed, the refresh installs nothing at all — it does not ingest the
bundle with a null marker for the failed section, which would have installed
the two surviving sections' records. -/
theorem load_rag_data_failure_not_independent :
    loadRagData embedLenQ (Except.error () : Except Unit MainData)
        (Except.ok tabsCE) (Except.ok listCE) (emptyRag ℚ) = emptyRag ℚ
    ∧ loadRagData embedLenQ (Except.error () : Except Unit MainData)
        (Except.ok tabsCE) (Except.ok listCE) (emptyRag ℚ)
      ≠ loadFromStolotoData embedLenQ ⟨none, some listCE, some tabsCE⟩
          (emptyRag ℚ) := by
  constructor
  · rfl
  · decide

/-- C10: a failed index refresh cannot abort `process_query`: the refresh
catches every failure internally, the query still reaches intent
classification, and a query classified as `search` against the (still empty)
index takes the empty-retrieval fallback — `action = "search"` with the
conversational string built from the no-results hint — rather than surfacing
an error. -/
theorem process_query_survives_refresh_failure (V J E : Type)
    (sim : V → V → ℚ) (embed : String → V) (c : Completions J)
    (mainF : Except E MainData) (tabsF : Except E TabsData)
    (listF : Except E ListData) (query : String)
    (hfail : ∃ e, loadRagDataE embed mainF tabsF listF (emptyRag V)
        = Except.error e)
    (hintent : pyDetectIntentS (c.intent query) = "search") :
    processQuery sim embed c mainF tabsF listF (emptyRag V) query false
      = (emptyRag V,
          ⟨"search",
            RouterContent.str (c.conversation (query ++ noResultsHint))⟩) := by
  obtain ⟨e, he⟩ := hfail
  have hrag : refreshedRag embed mainF tabsF listF (emptyRag V) false
      = emptyRag V := by
    unfold refreshedRag loadRagData
    rw [he]
    rfl
  unfold processQuery
  rw [hrag, hintent, if_pos rfl]
  rfl

/-- C10 witness: a concrete failing `main` fetch with an intent oracle that
classifies the query as a search. -/
theorem process_query_survives_refresh_failure_witness :
    processQuery mulSimQ embedLenQ echoCompletions
        (Except.error () : Except Unit MainData) (Except.ok tabsCE)
        (Except.ok listCE) (emptyRag ℚ) "q" false
      = (emptyRag ℚ,
          ⟨"search", RouterContent.str ("q" ++ noResultsHint)⟩) :=
  process_query_survives_refresh_failure ℚ Unit Unit mulSimQ embedLenQ
    echoCompletions (Except.error ()) (Except.ok tabsCE) (Except.ok listCE)
    "q" ⟨(), rfl⟩ (by decide)

/-- C7: result shape of `process_query` for a query classified as `search`
(`rag1` is the index after the lazy refresh, `results` the top-3 retrieval):
the action is always `"search"`; with empty retrieval the content is the
plain string returned by the conversational completion on the query with the
no-results hint appended; with non-empty retrieval the analysis completion's
text is JSON-parsed — the parsed structure on success, the raw text on
failure — where the analysis call receives the newline-joined flattened
result records. -/
theorem process_query_search_result_shape (V J E : Type) (sim : V → V → ℚ)
    (embed : String → V) (c : Completions J) (mainF : Except E MainData)
    (tabsF : Except E TabsData) (listF : Except E ListData)
    (rag : RagState V) (query : String) (force : Bool)
    (rag1 : RagState V)
    (hrag1 : rag1 = refreshedRag embed mainF tabsF listF rag force)
    (results : List (CatalogRecord × ℚ))
    (hres : results = searchModel sim embed rag1 (c.keywords query) 3)
    (resp : String)
    (hresp : resp = c.analysis ("Лотереи:\n"
        ++ String.intercalate "\n" (results.map fun r => recordToText r.1)))
    (hintent : pyDetectIntentS (c.intent query) = "search") :
    (processQuery sim embed c mainF tabsF listF rag query force).2.action
        = "search"
    ∧ (results = [] →
        (processQuery sim embed c mainF tabsF listF rag query force).2.content
          = RouterContent.str (c.conversation (query ++ noResultsHint)))
    ∧ (results ≠ [] → c.parse resp = none →
        (processQuery sim embed c mainF tabsF listF rag query force).2.content
          = RouterContent.str resp)
    ∧ (results ≠ [] → ∀ j, c.parse resp = some j →
        (processQuery sim embed c mainF tabsF listF rag query force).2.content
          = RouterContent.json j) := by
  subst hrag1
  subst hres
  subst hresp
  unfold processQuery
  rw [hintent, if_pos rfl]
  set results := searchModel sim embed
    (refreshedRag embed mainF tabsF listF rag force) (c.keywords query) 3
  by_cases hemp : results.isEmpty
  · have hre : results = [] := List.isEmpty_iff.mp hemp
    rw [if_pos hemp]
    exact ⟨rfl, fun _ => rfl, fun hne _ => absurd hre hne,
      fun hne j _ => absurd hre hne⟩
  · have hne : results ≠ [] := fun hre => hemp (List.isEmpty_iff.mpr hre)
    rw [if_neg hemp]
    refine ⟨?_, fun hre => absurd hre hne, ?_, ?_⟩
    · cases hp : c.parse (c.analysis ("Лотереи:\n"
          ++ String.intercalate "\n" (results.map fun r => recordToText r.1))) <;>
        simp [hp]
    · intro _ hn
      simp [hn]
    · intro _ j hj
      simp [hj]

/-- C7 witness: empty retrieval (empty index) yields the fallback string;
the hypotheses are discharged at a concrete failing refresh. -/
theorem process_query_search_result_shape_witness :
    (processQuery mulSimQ embedLenQ echoCompletions
        (Except.error () : Except Unit MainData) (Except.ok tabsCE)
        (Except.ok listCE) (emptyRag ℚ) "q" false).2.content
      = RouterContent.str ("q" ++ noResultsHint) :=
  (process_query_search_result_shape ℚ Unit Unit mulSimQ embedLenQ
      echoCompletions (Except.error ()) (Except.ok tabsCE) (Except.ok listCE)
      (emptyRag ℚ) "q" false (emptyRag ℚ) (by decide) [] (by decide) "Лотереи:\n"
      (by decide) (by decide)).2.1 rfl

/-- A concrete similarity oracle projecting onto the stored vector's scalar
(the score then exposes which stored vector produced it). -/
def sndSimQ (_x y : ℚ) : ℚ := y

/-- A one-lottery `main` section (the index contents before the re-ingest). -/
def mainOldCE : MainData :=
  ⟨[⟨[⟨some ⟨some [⟨some ⟨"c1", "OldLot", "live"⟩, none, none, none⟩]⟩⟩]⟩]⟩

/-- A two-lottery `main` section (the bundle being re-ingested). -/
def mainNewCE : MainData :=
  ⟨[⟨[⟨some ⟨some [⟨some ⟨"n1", "NewOne", "x"⟩, none, none, none⟩,
      ⟨some ⟨"n2", "NewTwoLonger", "x"⟩, none, none, none⟩]⟩⟩]⟩]⟩

/-- C3: `RAGSystem.search` takes no lock, so a search interleaved at the
`await asyncio.to_thread(self.model.encode, texts)` suspension point inside
`load_from_stoloto_data` observes the rebuilt record list paired with the
previous embedding matrix — a mixture of the two loads, not one complete
index.  Concretely: after a successful one-lottery load, an ingest of a
two-lottery bundle is suspended at the encode await; a search in that state
returns the first new record scored against the old record's vector, and
that score differs from the similarity the new record's own vector would
give.  (The record/vector pairing invariant is also visibly broken in this
state: two records, one vector.) -/
theorem rag_search_observes_mixed_state :
    (ragMidState ⟨some mainNewCE, none, none⟩
        (loadFromStolotoData embedLenQ ⟨some mainOldCE, none, none⟩
          (emptyRag ℚ))).data.length = 2
    ∧ (ragMidState ⟨some mainNewCE, none, none⟩
        (loadFromStolotoData embedLenQ ⟨some mainOldCE, none, none⟩
          (emptyRag ℚ))).embeddings
      = some [embedLenQ (recordToText
          (CatalogRecord.lottery "c1" "OldLot" "live" none none none))]
    ∧ searchModel sndSimQ embedLenQ
        (ragMidState ⟨some mainNewCE, none, none⟩
          (loadFromStolotoData embedLenQ ⟨some mainOldCE, none, none⟩
            (emptyRag ℚ)))
        "q" 3
      = [(CatalogRecord.lottery "n1" "NewOne" "x" none none none,
          embedLenQ (recordToText
            (CatalogRecord.lottery "c1" "OldLot" "live" none none none)))]
    ∧ embedLenQ (recordToText
          (CatalogRecord.lottery "c1" "OldLot" "live" none none none))
      ≠ sndSimQ (embedLenQ "q") (embedLenQ (recordToText
          (CatalogRecord.lottery "n1" "NewOne" "x" none none none))) := by
  refine ⟨rfl, by decide, by decide, by decide⟩

lemma argsortStable_perm (sims : List ℚ) :
    List.Perm (argsortStable sims) (List.range sims.length) :=
  List.perm_insertionSort _ _

lemma argsortStable_pairwise (sims : List ℚ) :
    List.Pairwise (idxLe sims) (argsortStable sims) :=
  List.sorted_insertionSort _ _

lemma load_embeddings_facts {V : Type} (embed : String → V)
    (b : SourceBundle) (prev : RagState V) (vs : List V)
    (h : (loadFromStolotoData embed b prev).embeddings = some vs) :
    vs.length = (loadFromStolotoData embed b prev).data.length
    ∧ (loadFromStolotoData embed b prev).data.length ≠ 0 := by
  unfold loadFromStolotoData at h ⊢
  by_cases hc : ((extractRecords b).map recordToText).isEmpty
  · rw [if_pos hc] at h
    exact absurd h (by simp)
  · rw [if_neg hc] at h ⊢
    simp only [Option.some.injEq] at h
    subst h
    constructor
    · simp
    · have hnil : extractRecords b ≠ [] := by
        intro hn
        apply hc
        rw [hn]
        rfl
      intro h0
      exact hnil (List.eq_nil_of_length_eq_zero h0)

lemma argsortStable_argsortSpec (sims : List ℚ) :
    ArgsortSpec sims (argsortStable sims) := by
  constructor
  · exact argsortStable_perm sims
  · apply (argsortStable_pairwise sims).imp
    intro a b hab
    rcases hab with h | ⟨h, _⟩
    · exact le_of_lt h
    · exact le_of_eq h

lemma searchModel_eq_searchResultOf {V : Type} (sim : V → V → ℚ)
    (embed : String → V) (st : RagState V) (query : String) (k : Nat)
    (embs : List V) (h : st.embeddings = some embs) :
    searchModel sim embed st query k
      = searchResultOf sim embed st query k
          (argsortStable (embs.map (sim (embed query)))) := by
  unfold searchModel searchResultOf searchIndices
  rw [h]

/-- C1 amended: `RAGSystem.search` on an empty index returns the empty list
(under every argsort output).  On any state a completed load installs, and
for *every* index order NumPy's unstable default `np.argsort` may produce
(`ArgsortSpec`: a permutation of the vector indices, ascending by
similarity), the result has at most `min(topK, number of records)` entries,
each pairing `self.data[idx]` with the similarity of the query embedding
against the stored vector at the same index, in non-increasing score order.
No tie-order guarantee survives: the default sort is unstable, so the
relative order of equal-score entries is unspecified in general, and on
arrays below NumPy's insertion-sort cutoff the code in fact returns ties in
*reverse* original record order (see the counterexample), refuting the
claimed original order.  `argsortStable` is one admissible output and
`searchModel` is exactly `searchResultOf` at it. -/
theorem rag_search_topk_spec :
    (∀ (V : Type) (sim : V → V → ℚ) (embed : String → V) (st : RagState V)
        (query : String) (k : Nat) (order : List Nat),
      (st.embeddings = none ∨ st.data = []) →
        searchModel sim embed st query k = []
        ∧ searchResultOf sim embed st query k order = [])
    ∧ (∀ (V : Type) (sim : V → V → ℚ) (embed : String → V)
        (bundle : SourceBundle) (prev : RagState V) (st : RagState V)
        (query : String) (k : Nat) (embs : List V) (sims : List ℚ)
        (order : List Nat),
        st = loadFromStolotoData embed bundle prev →
        st.embeddings = some embs →
        sims = embs.map (sim (embed query)) →
        ArgsortSpec sims order →
        (ArgsortSpec sims (argsortStable sims)
          ∧ searchModel sim embed st query k
              = searchResultOf sim embed st query k (argsortStable sims))
        ∧ searchResultOf sim embed st query k order
            = ((order.reverse).take k).map
                (fun i => (st.data.getD i default, sims.getD i 0))
        ∧ (searchResultOf sim embed st query k order).length
            ≤ min k st.data.length
        ∧ (∀ i ∈ (order.reverse).take k,
            i < st.data.length
            ∧ sims.getD i 0 = sim (embed query) (embs.getD i (embed query)))
        ∧ List.Pairwise (fun p q : CatalogRecord × ℚ => q.2 ≤ p.2)
            (searchResultOf sim embed st query k order)) := by
  constructor
  · intro V sim embed st query k order h
    rcases h with h | h
    · exact ⟨by simp [searchModel, h], by simp [searchResultOf, h]⟩
    · cases he : st.embeddings with
      | none => exact ⟨by simp [searchModel, he], by simp [searchResultOf, he]⟩
      | some embs =>
          exact ⟨by simp [searchModel, he, h], by simp [searchResultOf, he, h]⟩
  · intro V sim embed bundle prev st query k embs sims order hst hembs hsims hord
    obtain ⟨hperm, hsorted⟩ := hord
    have hload : (loadFromStolotoData embed bundle prev).embeddings
        = some embs := by
      rw [← hst]
      exact hembs
    obtain ⟨hlen, hpos⟩ := load_embeddings_facts embed bundle prev embs hload
    rw [← hst] at hlen hpos
    have hres : searchResultOf sim embed st query k order
        = ((order.reverse).take k).map
            (fun i => (st.data.getD i default, sims.getD i 0)) := by
      simp only [searchResultOf, hembs]
      rw [if_neg hpos, ← hsims]
    refine ⟨⟨argsortStable_argsortSpec sims, ?_⟩, hres, ?_, ?_, ?_⟩
    · have h2 := searchModel_eq_searchResultOf sim embed st query k embs hembs
      rw [← hsims] at h2
      exact h2
    · rw [hres, List.length_map, List.length_take, List.length_reverse]
      have hol : order.length = sims.length := by
        simpa using hperm.length_eq
      rw [hol, hsims, List.length_map, hlen]
    · intro i hi
      have hio : i ∈ order := List.mem_reverse.mp (List.mem_of_mem_take hi)
      have hil : i < sims.length := List.mem_range.mp (hperm.mem_iff.mp hio)
      have hie : i < embs.length := by
        rw [hsims, List.length_map] at hil
        exact hil
      refine ⟨?_, ?_⟩
      · rw [← hlen]
        exact hie
      · rw [hsims, List.getD_eq_getElem?_getD, List.getElem?_map,
          List.getElem?_eq_getElem hie, List.getD_eq_getElem?_getD,
          List.getElem?_eq_getElem hie]
        rfl
    · rw [hres, List.pairwise_map]
      have h1 : List.Pairwise (fun i j => sims.getD j 0 ≤ sims.getD i 0)
          order.reverse := List.pairwise_reverse.mpr hsorted
      exact List.Pairwise.sublist (List.take_sublist _ _) h1

/-- C1 witness: a loaded two-record index queried with `topK = 2` under a
concrete admissible argsort output returns at most `min 2 2` entries. -/
theorem rag_search_topk_spec_witness :
    (searchResultOf sndSimQ oneEmbedQ
        (loadFromStolotoData oneEmbedQ ⟨some mainNewCE, none, none⟩
          (emptyRag ℚ)) "q" 2 [0, 1]).length
      ≤ min 2 (loadFromStolotoData oneEmbedQ ⟨some mainNewCE, none, none⟩
          (emptyRag ℚ)).data.length :=
  (rag_search_topk_spec.2 ℚ sndSimQ oneEmbedQ ⟨some mainNewCE, none, none⟩
    (emptyRag ℚ)
    (loadFromStolotoData oneEmbedQ ⟨some mainNewCE, none, none⟩ (emptyRag ℚ))
    "q" 2 [(1 : ℚ), 1] [(1 : ℚ), 1] [0, 1] rfl (by decide) (by decide)
    ⟨by decide, by decide⟩).2.2.1

/-- C1 counterexample: two records with equal similarity scores.  The claim
says entries with equal score appear in original record order, i.e. record A
(index 0) first; the code's `np.argsort(...)[::-1]` returns index order
`[1, 0]`, so record B comes first. -/
theorem rag_search_tie_order_not_original :
    searchModel sndSimQ oneEmbedQ
        (⟨[CatalogRecord.lottery "A" "" "" none none none,
            CatalogRecord.lottery "B" "" "" none none none],
          some [(1 : ℚ), 1]⟩ : RagState ℚ) "q" 2
      = [(CatalogRecord.lottery "B" "" "" none none none, 1),
          (CatalogRecord.lottery "A" "" "" none none none, 1)]
    ∧ searchIndices ([(1 : ℚ), 1].map (sndSimQ (oneEmbedQ "q"))) 2 = [1, 0]
    ∧ CatalogRecord.lottery "A" "" "" none none none
        ≠ CatalogRecord.lottery "B" "" "" none none none := by
  refine ⟨by decide, by decide, by decide⟩

end Lotobot
